import Mathlib

/-!
Verification development for the YummyVerse audio-generation job server
(`src/app.py`).  The server keeps an in-memory task registry
(`self.__tasks : dict[str, dict]`), accepts jobs over `/generate`, runs
generation in a background worker (`__background_generate`), forwards the
finished artifact to a persistence service (`__save_to_db`), and reclaims
expired entries in a periodic sweep (`__cleanup_expired_files`).

The embedding below translates those functions over an explicit state:
the python dict becomes an association list preserving insertion order,
`time.time()` becomes an `Int`-valued clock passed explicitly, the
filesystem becomes the list of existing artifact paths, and the external
generation capability becomes an `Except String Unit` outcome parameter
(it either returns, having written the output file, or raises with some
message).  A python statement `tasks[id][k] = v` on a missing id raises
`KeyError`; such uncaught exceptions are modelled by `Except.error`.
-/

namespace YummyAudio

/-- Job status strings written by the server: exactly
"pending", "processing", "done", "error". -/
inductive Status where
  | pending
  | processing
  | done
  | error
deriving DecidableEq, Repr

/-- One entry of `self.__tasks`: a python dict whose possible keys are
"status", "timestamp", "result", "error".  A key that was never written
is an absent dict key, modelled with `none`. -/
structure Task where
  status : Status
  timestamp : Option Int := none
  result : Option String := none
  error : Option String := none
deriving DecidableEq, Repr

/-- The registry `self.__tasks`, as an insertion-ordered association list
(python dicts preserve insertion order). -/
abbrev Tasks := List (String × Task)

/-- Dict lookup `tasks.get(id)` / `id in tasks`: first entry with the key. -/
def lookupTask : Tasks → String → Option Task
  | [], _ => none
  | (k, t) :: rest, id => if k = id then some t else lookupTask rest id

/-- Dict assignment `tasks[id] = t`: replace the entry in place if the key
exists, else append (python keeps the original insertion position on
overwrite and appends fresh keys at the end). -/
def setTask : Tasks → String → Task → Tasks
  | [], id, t => [(id, t)]
  | (k, u) :: rest, id, t =>
      if k = id then (id, t) :: rest else (k, u) :: setTask rest id t

/-- Dict deletion `del tasks[id]`: drop the entry carrying the key. -/
def delTask : Tasks → String → Tasks
  | [], _ => []
  | (k, t) :: rest, id => if k = id then delTask rest id else (k, t) :: delTask rest id

/-- Registry keys, in insertion order. -/
def taskKeys (tasks : Tasks) : List String :=
  tasks.map Prod.fst

/-- Well-formedness of the registry representation: a python dict never
holds the same key twice. -/
def WFTasks (tasks : Tasks) : Prop :=
  (taskKeys tasks).Nodup

/-- Number of entries carrying a given key (a well-formed registry has at
most one). -/
def countKey (tasks : Tasks) (id : String) : Nat :=
  (tasks.filter (fun p => p.1 = id)).length

/-- The mutable state of the `App` object together with its environment:
the registry, the list of queued background tasks `(user_id, prompt)`,
the set of files existing under the output directory, the log of uploads
that reached the persister, and the configuration fields fixed at
`__init__` (`debug`, `self.__expire_time`, `self.__output_dir`). -/
structure AppState where
  tasks : Tasks
  queue : List (String × String)
  files : List String
  savedToDb : List (String × String)
  debug : Bool
  expire : Int
  outputDir : String
deriving DecidableEq, Repr

/-- Well-formed app state: the registry is a valid dict. -/
def WF (s : AppState) : Prop :=
  WFTasks s.tasks

instance : DecidablePred WF := fun s =>
  inferInstanceAs (Decidable ((taskKeys s.tasks).Nodup))

/-- Numeric configuration dictionary (the subset of `config` read through
`config.get` with integer defaults). -/
abbrev Config := List (String × Int)

/-- Translation of `self.__expire_time = config.get("expire", 300)`. -/
def expireTime (config : Config) : Int :=
  ((config.find? (fun p => p.1 == "expire")).map Prod.snd).getD 300

/-- The sweep period of `__cleanup_expired_files`: the literal
`await asyncio.sleep(300)` ("Check every 5 minutes").  It reads nothing
from the configuration the `App` was constructed with. -/
def reaperPeriod (config : Config) : Int := 300

/-- App state right after `App.__init__(config, debug)`: empty registry,
no queued work, expiry time looked up from the configuration. -/
def mkAppState (config : Config) (debug : Bool) : AppState :=
  { tasks := []
    queue := []
    files := []
    savedToDb := []
    debug := debug
    expire := expireTime config
    outputDir := "./output" }

/-- Translation of `os.path.join(self.__output_dir, f"{user_id}.wav")`. -/
def outPath (s : AppState) (user_id : String) : String :=
  s.outputDir ++ "/" ++ user_id ++ ".wav"

/-- Translation of `App.generate_audio` (the `/generate` handler), at
clock value `now`: store `{"status": "pending", "timestamp": now}` under
the id (overwriting any prior entry), then hand the pair to the
background task runner. -/
def generate_audio (s : AppState) (now : Int) (user_id prompt : String) : AppState :=
  { s with
      tasks := setTask s.tasks user_id
        { status := Status.pending, timestamp := some now, result := none, error := none }
      queue := s.queue ++ [(user_id, prompt)] }

/-- Response of `GET /status/{task_id}`. -/
inductive StatusResponse where
  | notFound
  | ok (task_id : String) (status : Status)
deriving DecidableEq, Repr

/-- Translation of `App.get_status`: 404 when the id is absent, else the
stored status. -/
def get_status (s : AppState) (user_id : String) : StatusResponse :=
  match lookupTask s.tasks user_id with
  | none => StatusResponse.notFound
  | some t => StatusResponse.ok user_id t.status

/-- Response of `GET /queue`. -/
structure QueueResponse where
  total : Nat
  pending : List String
  processing : List String
  done : List String
  error : List String
deriving DecidableEq, Repr

/-- Translation of `App.queue_status`: the registry size and the ids
filtered by each status value. -/
def queue_status (s : AppState) : QueueResponse :=
  { total := s.tasks.length
    pending := ((s.tasks.filter (fun p => p.2.status = Status.pending)).map Prod.fst)
    processing := ((s.tasks.filter (fun p => p.2.status = Status.processing)).map Prod.fst)
    done := ((s.tasks.filter (fun p => p.2.status = Status.done)).map Prod.fst)
    error := ((s.tasks.filter (fun p => p.2.status = Status.error)).map Prod.fst) }

/-- Translation of `App.__save_to_db`.  In debug mode it returns at once.
Otherwise it opens the artifact (a missing file raises, caught by the
handler that only logs), performs the POST, and — before checking the
response status — removes the local file.  `postReturns` tells whether
`requests.post` returned a response (of any status code; a non-2xx only
raises in `raise_for_status`, after the removal, and is caught) or raised
before returning.  `savedToDb` records uploads that reached the
persister. -/
def save_to_db (s : AppState) (user_id audio_path : String) (postReturns : Bool) : AppState :=
  if s.debug then s
  else if audio_path ∈ s.files then
    if postReturns then
      { s with
          savedToDb := s.savedToDb ++ [(user_id, audio_path)]
          files := s.files.erase audio_path }
    else s
  else s

/-- First statement of `__background_generate`:
`self.__tasks[user_id]["status"] = "processing"`.  When the id is absent
this raises `KeyError`; the `except` handler then executes
`self.__tasks[user_id]["status"] = "error"`, which raises `KeyError`
again, uncaught. -/
def workerStart (s : AppState) (user_id : String) : Except String AppState :=
  match lookupTask s.tasks user_id with
  | none => Except.error "KeyError"
  | some t =>
      Except.ok { s with tasks := setTask s.tasks user_id { t with status := Status.processing } }

/-- Rest of `__background_generate`, resumed from the point the slow
`self.__generate` call finishes, on whatever state `s` the registry is in
by then.  On generation success the output file now exists and the worker
writes `status = "done"`, `result`, `timestamp = time.time()` and calls
`__save_to_db`; on generation failure the handler writes
`status = "error"` and `error = str(e)` (note: no timestamp update).
Either write raises an uncaught `KeyError` when the id has disappeared
from the registry, because the `except` handler's own first write indexes
the same missing key. -/
def workerFinish (s : AppState) (now : Int) (user_id : String)
    (gen : Except String Unit) (postReturns : Bool) : Except String AppState :=
  match gen with
  | Except.error msg =>
      match lookupTask s.tasks user_id with
      | none => Except.error "KeyError"
      | some t =>
          let t2 := { t with status := Status.error, error := some msg }
          Except.ok { s with tasks := setTask s.tasks user_id t2 }
  | Except.ok _ =>
      let out := outPath s user_id
      let s2 := { s with files := out :: s.files }
      match lookupTask s2.tasks user_id with
      | none => Except.error "KeyError"
      | some t =>
          let t2 := { t with status := Status.done, result := some out, timestamp := some now }
          let s3 := { s2 with tasks := setTask s2.tasks user_id t2 }
          Except.ok (save_to_db s3 user_id out postReturns)

/-- Translation of `App.__background_generate` run without interleaved
registry activity during the generation call: the processing write
followed immediately by the completion writes. -/
def background_generate (s : AppState) (now : Int) (user_id prompt : String)
    (gen : Except String Unit) (postReturns : Bool) : Except String AppState :=
  match workerStart s user_id with
  | Except.error e => Except.error e
  | Except.ok s1 => workerFinish s1 now user_id gen postReturns

/-- Expiry test of the sweep:
`"timestamp" in t and now - t["timestamp"] > self.__expire_time`. -/
def isExpired (now expire : Int) (t : Task) : Bool :=
  match t.timestamp with
  | none => false
  | some ts => decide (now - ts > expire)

/-- Body of the sweep's loop for one expired id: delete the artifact file
if the entry names one that exists (a removal failure is swallowed), then
delete the registry entry. -/
def cleanupBody (st : AppState) (tid : String) : AppState :=
  let rp := (lookupTask st.tasks tid).bind Task.result
  let files2 :=
    match rp with
    | some p => if p ≠ "" ∧ p ∈ st.files then st.files.erase p else st.files
    | none => st.files
  { st with files := files2, tasks := delTask st.tasks tid }

/-- The `expired` list computed at the top of a sweep tick. -/
def expiredIds (s : AppState) (now : Int) : List String :=
  (s.tasks.filter (fun p => isExpired now s.expire p.2)).map Prod.fst

/-- One tick of `App.__cleanup_expired_files` at clock value `now`:
collect the expired ids, then run the deletion loop over them. -/
def cleanupStep (s : AppState) (now : Int) : AppState :=
  (expiredIds s now).foldl cleanupBody s

/-! Helper lemmas about the registry operations. -/

theorem lookup_setTask (tasks : Tasks) (id : String) (t : Task) (id2 : String) :
    lookupTask (setTask tasks id t) id2 = if id2 = id then some t else lookupTask tasks id2 := by
  induction tasks with
  | nil =>
      by_cases h : id2 = id
      · simp [setTask, lookupTask, h]
      · simp [setTask, lookupTask, h, Ne.symm h]
  | cons p rest ih =>
      obtain ⟨k, u⟩ := p
      by_cases hk : k = id
      · subst hk
        by_cases h : id2 = k
        · simp [setTask, lookupTask, h]
        · simp [setTask, lookupTask, h, Ne.symm h]
      · by_cases h2 : k = id2
        · subst h2
          have hne : ¬ k = id := hk
          have hne2 : ¬ k = id := hk
          simp [setTask, lookupTask, hk, Ne.symm hk]
        · simp [setTask, lookupTask, hk, h2, ih]

theorem lookup_delTask (tasks : Tasks) (tid id : String) :
    lookupTask (delTask tasks tid) id = if id = tid then none else lookupTask tasks id := by
  induction tasks with
  | nil => simp [delTask, lookupTask]
  | cons p rest ih =>
      obtain ⟨k, u⟩ := p
      by_cases hk : k = tid
      · subst hk
        by_cases h : id = k
        · subst h
          simpa [delTask] using ih
        · simp [delTask, lookupTask, h, Ne.symm h, ih]
      · by_cases h2 : k = id
        · subst h2
          simp [delTask, lookupTask, hk, Ne.symm hk]
        · simp [delTask, lookupTask, hk, h2, ih]

theorem mem_of_lookup_eq_some {tasks : Tasks} {id : String} {t : Task}
    (h : lookupTask tasks id = some t) : (id, t) ∈ tasks := by
  induction tasks with
  | nil => simp [lookupTask] at h
  | cons p rest ih =>
      obtain ⟨k, u⟩ := p
      by_cases hk : k = id
      · subst hk
        simp [lookupTask] at h
        simp [h]
      · simp [lookupTask, hk] at h
        simp [ih h]

theorem lookup_eq_some_of_mem {tasks : Tasks} {id : String} {t : Task}
    (hwf : WFTasks tasks) (h : (id, t) ∈ tasks) : lookupTask tasks id = some t := by
  induction tasks with
  | nil => simp at h
  | cons p rest ih =>
      obtain ⟨k, u⟩ := p
      simp only [WFTasks, taskKeys, List.map_cons, List.nodup_cons] at hwf
      rcases List.mem_cons.mp h with h1 | h1
      · have hk : id = k := congrArg Prod.fst h1
        have ht : t = u := congrArg Prod.snd h1
        subst hk
        subst ht
        simp [lookupTask]
      · have hne : k ≠ id := by
          intro he
          subst he
          exact hwf.1 (by simpa using List.mem_map_of_mem Prod.fst h1)
        simp only [lookupTask, if_neg hne]
        exact ih hwf.2 h1

theorem taskKeys_setTask (tasks : Tasks) (id : String) (t : Task) :
    taskKeys (setTask tasks id t) =
      if id ∈ taskKeys tasks then taskKeys tasks else taskKeys tasks ++ [id] := by
  induction tasks with
  | nil => simp [setTask, taskKeys]
  | cons p rest ih =>
      obtain ⟨k, u⟩ := p
      by_cases hk : k = id
      · subst hk
        simp [setTask, taskKeys]
      · have hne : ¬ id = k := fun h => hk h.symm
        simp only [taskKeys] at ih ⊢
        simp only [List.map_cons, List.mem_cons]
        by_cases hmem : id ∈ List.map Prod.fst rest
        · rw [if_pos (Or.inr hmem)]
          have ih2 : List.map Prod.fst (setTask rest id t) = List.map Prod.fst rest := by
            simpa [hmem] using ih
          simp [setTask, hk, ih2]
        · rw [if_neg (by simp [hne, hmem])]
          have ih2 : List.map Prod.fst (setTask rest id t) = List.map Prod.fst rest ++ [id] := by
            simpa [hmem] using ih
          simp [setTask, hk, ih2]

theorem wf_setTask {tasks : Tasks} (hwf : WFTasks tasks) (id : String) (t : Task) :
    WFTasks (setTask tasks id t) := by
  simp only [WFTasks] at hwf ⊢
  rw [taskKeys_setTask]
  by_cases hmem : id ∈ taskKeys tasks
  · simpa [hmem] using hwf
  · rw [if_neg hmem]
    refine List.Nodup.append hwf (by simp) ?_
    intro a ha hb
    simp at hb
    subst hb
    exact hmem ha

/-! Lemmas about the cleanup sweep. -/

theorem cleanupBody_tasks (st : AppState) (tid : String) :
    (cleanupBody st tid).tasks = delTask st.tasks tid := rfl

theorem foldl_cleanupBody_tasks (L : List String) (s : AppState) :
    (L.foldl cleanupBody s).tasks = L.foldl delTask s.tasks := by
  induction L generalizing s with
  | nil => rfl
  | cons a L ih => simp [List.foldl_cons, ih, cleanupBody_tasks]

theorem foldl_cleanupBody_proj (L : List String) (s : AppState) :
    (L.foldl cleanupBody s).expire = s.expire ∧ (L.foldl cleanupBody s).debug = s.debug ∧
      (L.foldl cleanupBody s).queue = s.queue ∧
      (L.foldl cleanupBody s).savedToDb = s.savedToDb ∧
      (L.foldl cleanupBody s).outputDir = s.outputDir := by
  induction L generalizing s with
  | nil => exact ⟨rfl, rfl, rfl, rfl, rfl⟩
  | cons a L ih => simpa [cleanupBody] using ih (cleanupBody s a)

theorem lookup_foldl_delTask (L : List String) (ts : Tasks) (id : String) :
    lookupTask (L.foldl delTask ts) id = if id ∈ L then none else lookupTask ts id := by
  induction L generalizing ts with
  | nil => simp
  | cons a L ih =>
      rw [List.foldl_cons, ih, lookup_delTask]
      by_cases h1 : id ∈ L <;> by_cases h2 : id = a <;> simp [h1, h2]

theorem mem_expiredIds (s : AppState) (now : Int) (id : String) :
    id ∈ expiredIds s now ↔ ∃ t, (id, t) ∈ s.tasks ∧ isExpired now s.expire t = true := by
  simp only [expiredIds, List.mem_map, List.mem_filter]
  constructor
  · rintro ⟨p, ⟨hp, he⟩, hid⟩
    refine ⟨p.2, ?_, he⟩
    rw [← hid]
    simpa using hp
  · rintro ⟨t, ht, he⟩
    exact ⟨(id, t), ⟨ht, he⟩, rfl⟩

theorem cleanup_lookup (s : AppState) (now : Int) (id : String) :
    lookupTask (cleanupStep s now).tasks id =
      if id ∈ expiredIds s now then none else lookupTask s.tasks id := by
  rw [cleanupStep, foldl_cleanupBody_tasks, lookup_foldl_delTask]

/-- A registry entry that is not yet expired survives a sweep tick
untouched. -/
theorem cleanup_keeps {s : AppState} {now : Int} {id : String} {t : Task}
    (hwf : WF s) (h : lookupTask s.tasks id = some t)
    (hexp : isExpired now s.expire t = false) :
    lookupTask (cleanupStep s now).tasks id = some t := by
  rw [cleanup_lookup, if_neg, h]
  intro hmem
  obtain ⟨t2, ht2, he2⟩ := (mem_expiredIds s now id).mp hmem
  have h2 := lookup_eq_some_of_mem hwf ht2
  rw [h] at h2
  injection h2 with h3
  rw [h3, he2] at hexp
  simp at hexp

/-- A registry entry whose expiry test fires is removed by the sweep. -/
theorem cleanup_drops {s : AppState} {now : Int} {id : String} {t : Task}
    (h : lookupTask s.tasks id = some t)
    (hexp : isExpired now s.expire t = true) :
    lookupTask (cleanupStep s now).tasks id = none := by
  rw [cleanup_lookup, if_pos]
  exact (mem_expiredIds s now id).mpr ⟨t, mem_of_lookup_eq_some h, hexp⟩

/-! Projection lemmas for the other operations. -/

theorem save_to_db_proj (s : AppState) (u a : String) (pr : Bool) :
    (save_to_db s u a pr).tasks = s.tasks ∧ (save_to_db s u a pr).expire = s.expire ∧
      (save_to_db s u a pr).debug = s.debug ∧ (save_to_db s u a pr).queue = s.queue ∧
      (save_to_db s u a pr).outputDir = s.outputDir := by
  unfold save_to_db
  split_ifs <;> simp

theorem setTask_setTask (tasks : Tasks) (id : String) (t1 t2 : Task) :
    setTask (setTask tasks id t1) id t2 = setTask tasks id t2 := by
  induction tasks with
  | nil => simp [setTask]
  | cons p rest ih =>
      obtain ⟨k, u⟩ := p
      by_cases hk : k = id
      · simp [setTask, hk]
      · simp [setTask, hk, ih]

/-- Shape of a worker run that finds its entry and whose generation call
succeeds: the entry ends `done` with the artifact path and a fresh
timestamp, the artifact file is created, and the persistence bridge
runs on the result. -/
theorem background_generate_ok_eq {s : AppState} {id : String} {t : Task}
    (now : Int) (p : String) (pr : Bool) (h : lookupTask s.tasks id = some t) :
    background_generate s now id p (Except.ok ()) pr =
      Except.ok (save_to_db
        { s with
            files := outPath s id :: s.files
            tasks := setTask s.tasks id
              { status := Status.done, timestamp := some now,
                result := some (outPath s id), error := t.error } }
        id (outPath s id) pr) := by
  unfold background_generate workerStart workerFinish
  rw [h]
  simp only [lookup_setTask, if_pos rfl, outPath, setTask_setTask]
  simp

/-- Shape of a worker run that finds its entry and whose generation call
raises with message `msg`: the entry ends `error` carrying the message,
with its timestamp (and any stale result) left untouched, and the
persistence bridge never runs. -/
theorem background_generate_err_eq {s : AppState} {id : String} {t : Task}
    (now : Int) (p msg : String) (pr : Bool) (h : lookupTask s.tasks id = some t) :
    background_generate s now id p (Except.error msg) pr =
      Except.ok
        { s with tasks := setTask s.tasks id ⟨Status.error, t.timestamp, t.result, some msg⟩ } := by
  unfold background_generate workerStart workerFinish
  rw [h]
  simp only [lookup_setTask, if_pos rfl, setTask_setTask]
  simp

/-- Resuming the worker after the generation call when the registry no
longer holds the id raises an uncaught KeyError, whichever way the
generation call ended. -/
theorem workerFinish_keyError {s : AppState} {id : String}
    (now : Int) (gen : Except String Unit) (pr : Bool)
    (h : lookupTask s.tasks id = none) :
    workerFinish s now id gen pr = Except.error "KeyError" := by
  unfold workerFinish
  cases gen <;> simp [h]

/-! Claim C1. -/

/-- A registry holding one job submitted at time 0 that is still pending. -/
def c1State : AppState :=
  { tasks := [("u1", ⟨Status.pending, some 0, none, none⟩)]
    queue := []
    files := []
    savedToDb := []
    debug := false
    expire := 300
    outputDir := "./output" }

/-- Claim C1 as stated is false: the sweep keys on the `timestamp` field,
which `generate_audio` stamps at submission, so a job that is still
`pending` 301 seconds after submission (TTL 300) is deleted by the next
tick even though it is not in a terminal state. -/
theorem C1_counterexample :
    (lookupTask c1State.tasks "u1").map Task.status = some Status.pending ∧
      lookupTask (cleanupStep c1State 301).tasks "u1" = none := by
  constructor <;> decide

/-- Claim C1, amended: a Reaper tick governs jobs by age of their
`timestamp` field alone, not by status.  A pending or processing Job is
kept by the sweep exactly as long as its timestamp (its submission time)
is at most TTL old; once `now - timestamp > TTL` it is deleted even
though it never reached a terminal state. -/
theorem C1_amended (s : AppState) (now : Int) (id : String) (t : Task)
    (hwf : WF s) (h : lookupTask s.tasks id = some t)
    (hst : t.status = Status.pending ∨ t.status = Status.processing) :
    (isExpired now s.expire t = false → lookupTask (cleanupStep s now).tasks id = some t) ∧
      (isExpired now s.expire t = true → lookupTask (cleanupStep s now).tasks id = none) :=
  ⟨fun hexp => cleanup_keeps hwf h hexp, fun hexp => cleanup_drops h hexp⟩

/-- Concrete instantiation of the amended C1 at the one-job registry. -/
theorem C1_witness :
    (isExpired 100 c1State.expire ⟨Status.pending, some 0, none, none⟩ = false →
        lookupTask (cleanupStep c1State 100).tasks "u1" =
          some ⟨Status.pending, some 0, none, none⟩) ∧
      (isExpired 100 c1State.expire ⟨Status.pending, some 0, none, none⟩ = true →
        lookupTask (cleanupStep c1State 100).tasks "u1" = none) :=
  C1_amended c1State 100 "u1" ⟨Status.pending, some 0, none, none⟩
    (by decide) (by decide) (Or.inl rfl)

/-! Claim C2. -/

/-- State after submitting job "u1" to a freshly constructed app. -/
def c2Submitted : AppState :=
  generate_audio (mkAppState [] false) 0 "u1" "first prompt"

/-- State after the background worker then runs "u1" to success. -/
def c2AfterWorker : AppState :=
  match background_generate c2Submitted 5 "u1" "first prompt" (Except.ok ()) true with
  | Except.ok s => s
  | Except.error _ => c2Submitted

/-- Claim C2 as stated is false: after "u1" is observed `done`, a second
`/generate` for the same id overwrites the record in place — the entry is
never deleted, yet the next observation of "u1" is `pending`. -/
theorem C2_counterexample :
    get_status c2AfterWorker "u1" = StatusResponse.ok "u1" Status.done ∧
      lookupTask c2AfterWorker.tasks "u1" ≠ none ∧
      get_status (generate_audio c2AfterWorker 20 "u1" "second prompt") "u1" =
        StatusResponse.ok "u1" Status.pending ∧
      lookupTask (generate_audio c2AfterWorker 20 "u1" "second prompt").tasks "u1" ≠ none := by
  refine ⟨by decide, by decide, by decide, by decide⟩

/-- Claim C2, amended: a terminal status regresses to `pending` or
`processing` only through a new `/generate` submission for that same id
(which overwrites the record without deleting it) or through a worker
still in flight for that id.  All other activity preserves it: a Reaper
tick either deletes the entry outright or leaves it untouched, and
submissions or worker runs for a different id never alter it. -/
theorem C2_amended (s : AppState) (now : Int) (id id2 p2 : String) (t : Task)
    (gen : Except String Unit) (pr : Bool)
    (hwf : WF s) (h : lookupTask s.tasks id = some t)
    (hterm : t.status = Status.done ∨ t.status = Status.error)
    (hne : id2 ≠ id) :
    (lookupTask (cleanupStep s now).tasks id = none ∨
        lookupTask (cleanupStep s now).tasks id = some t) ∧
      lookupTask (generate_audio s now id2 p2).tasks id = some t ∧
      (∀ s2, background_generate s now id2 p2 gen pr = Except.ok s2 →
        lookupTask s2.tasks id = some t) := by
  refine ⟨?_, ?_, ?_⟩
  · rw [cleanup_lookup]
    by_cases hm : id ∈ expiredIds s now
    · exact Or.inl (by rw [if_pos hm])
    · exact Or.inr (by rw [if_neg hm]; exact h)
  · have hne2 : ¬ id = id2 := fun hh => hne hh.symm
    rw [generate_audio]
    simpa [lookup_setTask, hne2] using h
  · intro s2 h2
    have hne2 : ¬ id = id2 := fun hh => hne hh.symm
    cases hl : lookupTask s.tasks id2 with
    | none =>
        rw [background_generate, workerStart, hl] at h2
        exact absurd h2 (by simp)
    | some t2 =>
        cases gen with
        | ok u =>
            cases u
            rw [background_generate_ok_eq now p2 pr hl] at h2
            injection h2 with h2
            rw [← h2, (save_to_db_proj _ _ _ _).1]
            simpa [lookup_setTask, hne2] using h
        | error msg =>
            rw [background_generate_err_eq now p2 msg pr hl] at h2
            injection h2 with h2
            rw [← h2]
            simpa [lookup_setTask, hne2] using h


/-- A two-job registry: "u1" finished, "u2" pending. -/
def c2WitState : AppState :=
  { tasks := [("u1", ⟨Status.done, some 10, some "./output/u1.wav", none⟩),
              ("u2", ⟨Status.pending, some 50, none, none⟩)]
    queue := []
    files := ["./output/u1.wav"]
    savedToDb := []
    debug := false
    expire := 300
    outputDir := "./output" }

/-- State after the worker additionally runs "u2" to success. -/
def c2WitAfter : AppState :=
  match background_generate c2WitState 60 "u2" "another" (Except.ok ()) true with
  | Except.ok s => s
  | Except.error _ => c2WitState

/-- Concrete instantiation of the amended C2: activity on "u2" and a
Reaper tick preserve the terminal record of "u1". -/
theorem C2_witness :
    (lookupTask (cleanupStep c2WitState 60).tasks "u1" = none ∨
        lookupTask (cleanupStep c2WitState 60).tasks "u1" =
          some ⟨Status.done, some 10, some "./output/u1.wav", none⟩) ∧
      lookupTask (generate_audio c2WitState 60 "u2" "another").tasks "u1" =
        some ⟨Status.done, some 10, some "./output/u1.wav", none⟩ ∧
      lookupTask c2WitAfter.tasks "u1" =
        some ⟨Status.done, some 10, some "./output/u1.wav", none⟩ := by
  have H := C2_amended c2WitState 60 "u1" "u2" "another"
    ⟨Status.done, some 10, some "./output/u1.wav", none⟩ (Except.ok ()) true
    (by decide) (by decide) (Or.inl rfl) (by decide)
  exact ⟨H.1, H.2.1, H.2.2 c2WitAfter (by rfl)⟩

/-! Claim C3. -/

/-- A one-job registry: "u1" submitted at time 0, still pending. -/
def c3State : AppState :=
  { tasks := [("u1", ⟨Status.pending, some 0, none, none⟩)]
    queue := [("u1", "a prompt")]
    files := []
    savedToDb := []
    debug := false
    expire := 300
    outputDir := "./output" }

/-- State after the worker runs "u1" to success at time 400. -/
def c3AfterDone : AppState :=
  match background_generate c3State 400 "u1" "a prompt" (Except.ok ()) true with
  | Except.ok s => s
  | Except.error _ => c3State

/-- State after the worker instead fails for "u1" at time 400. -/
def c3AfterError : AppState :=
  match background_generate c3State 400 "u1" "a prompt" (Except.error "boom") true with
  | Except.ok s => s
  | Except.error _ => c3State

/-- Claim C3 as stated is false: the transition into `error` does not
restamp the timestamp (it stays at the submission time 0), so a Job that
entered `error` at time 400 — one second before a tick at 401, far less
than the TTL of 300 — is already absent after that tick. -/
theorem C3_counterexample :
    (lookupTask c3AfterError.tasks "u1").map Task.status = some Status.error ∧
      (lookupTask c3AfterError.tasks "u1").map Task.timestamp = some (some 0) ∧
      lookupTask (cleanupStep c3AfterError 401).tasks "u1" = none := by
  refine ⟨by decide, by decide, by decide⟩

/-- Claim C3, amended: the expiry anchor is stamped only on the
transition into `done` (the success path sets `timestamp = time.time()`);
the transition into `error` leaves the timestamp at its prior value, the
submission time.  Hence a done Job completed within TTL survives the next
tick, while an errored Job is reaped as soon as its submission is more
than TTL old, no matter how recently it entered `error`. -/
theorem C3_amended (s : AppState) (now now2 : Int) (id p msg : String) (pr : Bool)
    (t : Task) (s1 s2 : AppState)
    (hwf : WF s) (h : lookupTask s.tasks id = some t)
    (h1 : background_generate s now id p (Except.ok ()) pr = Except.ok s1)
    (h2 : background_generate s now id p (Except.error msg) pr = Except.ok s2) :
    (lookupTask s1.tasks id).map Task.timestamp = some (some now) ∧
      (lookupTask s2.tasks id).map Task.timestamp = some t.timestamp ∧
      (now2 - now ≤ s.expire →
        (lookupTask (cleanupStep s1 now2).tasks id).map Task.status = some Status.done) ∧
      (∀ ts, t.timestamp = some ts → now2 - ts > s.expire →
        lookupTask (cleanupStep s2 now2).tasks id = none) := by
  rw [background_generate_ok_eq now p pr h] at h1
  rw [background_generate_err_eq now p msg pr h] at h2
  injection h1 with h1
  injection h2 with h2
  have htasks1 : s1.tasks =
      setTask s.tasks id ⟨Status.done, some now, some (outPath s id), t.error⟩ := by
    rw [← h1, (save_to_db_proj _ _ _ _).1]
  have hexp1 : s1.expire = s.expire := by
    rw [← h1, (save_to_db_proj _ _ _ _).2.1]
  have htasks2 : s2.tasks = setTask s.tasks id ⟨Status.error, t.timestamp, t.result, some msg⟩ := by
    rw [← h2]
  have hexp2 : s2.expire = s.expire := by rw [← h2]
  have hl1 : lookupTask s1.tasks id =
      some ⟨Status.done, some now, some (outPath s id), t.error⟩ := by
    rw [htasks1, lookup_setTask, if_pos rfl]
  have hl2 : lookupTask s2.tasks id =
      some ⟨Status.error, t.timestamp, t.result, some msg⟩ := by
    rw [htasks2, lookup_setTask, if_pos rfl]
  refine ⟨by rw [hl1]; rfl, by rw [hl2]; rfl, ?_, ?_⟩
  · intro hle
    have hwf1 : WF s1 := by
      show WFTasks s1.tasks
      rw [htasks1]
      exact wf_setTask hwf _ _
    have hne : isExpired now2 s1.expire ⟨Status.done, some now, some (outPath s id), t.error⟩
        = false := by
      rw [hexp1]
      simp only [isExpired, decide_eq_false_iff_not, not_lt]
      omega
    rw [cleanup_keeps hwf1 hl1 hne]
    rfl
  · intro ts hts hgt
    refine cleanup_drops hl2 ?_
    rw [hexp2]
    simp only [isExpired, hts, decide_eq_true_eq]
    omega

/-- Concrete instantiation of the amended C3 on the one-job registry:
success at time 400 stamps timestamp 400 and the entry survives the tick
at 401; failure at time 400 keeps timestamp 0 and the tick at 401 deletes
the just-errored entry. -/
theorem C3_witness :
    (lookupTask c3AfterDone.tasks "u1").map Task.timestamp = some (some 400) ∧
      (lookupTask c3AfterError.tasks "u1").map Task.timestamp = some (some 0) ∧
      (lookupTask (cleanupStep c3AfterDone 401).tasks "u1").map Task.status =
        some Status.done ∧
      lookupTask (cleanupStep c3AfterError 401).tasks "u1" = none := by
  have H := C3_amended c3State 400 401 "u1" "a prompt" "boom" true
    ⟨Status.pending, some 0, none, none⟩ c3AfterDone c3AfterError
    (by decide) (by decide) (by rfl) (by rfl)
  exact ⟨H.1, H.2.1, H.2.2.1 (by decide), H.2.2.2 0 rfl (by decide)⟩

/-! Claim C4. -/

/-- A one-job registry for the persistence-bridge scenario: "u1"
submitted at time 0, bridge enabled (debug off), no files yet. -/
def c4State : AppState :=
  { tasks := [("u1", ⟨Status.pending, some 0, none, none⟩)]
    queue := [("u1", "a prompt")]
    files := []
    savedToDb := []
    debug := false
    expire := 300
    outputDir := "./output" }

/-- State after the worker runs "u1" to success at time 10 and the
persister POST returns. -/
def c4AfterSave : AppState :=
  match background_generate c4State 10 "u1" "a prompt" (Except.ok ()) true with
  | Except.ok s => s
  | Except.error _ => c4State

/-- Claim C4 as stated is false: with the bridge enabled, right after the
worker finishes, the Job is `done` with `result = ./output/u1.wav`, yet
that artifact no longer exists — `__save_to_db` removed it immediately
after the upload POST, long before any Reaper tick. -/
theorem C4_counterexample :
    (lookupTask c4AfterSave.tasks "u1").map Task.status = some Status.done ∧
      (lookupTask c4AfterSave.tasks "u1").bind Task.result = some "./output/u1.wav" ∧
      c4AfterSave.debug = false ∧
      "./output/u1.wav" ∉ c4AfterSave.files ∧
      c4AfterSave.savedToDb = [("u1", "./output/u1.wav")] := by
  refine ⟨by decide, by decide, by decide, by decide, by decide⟩

/-- Claim C4, amended: after a successful generation the Job record says
`done` with `result` set, but the artifact's lifetime depends on the
bridge.  In debug mode (bridge skipped) the generated file stays on disk
for the Reaper to delete later; with the bridge enabled, `__save_to_db`
itself removes the local artifact as soon as the upload POST returns, so
the record's `result` path names a file that no longer exists while the
entry is still in the registry. -/
theorem C4_amended (s : AppState) (now : Int) (id p : String) (t : Task) (s1 : AppState)
    (h : lookupTask s.tasks id = some t)
    (hout : outPath s id ∉ s.files)
    (h1 : background_generate s now id p (Except.ok ()) true = Except.ok s1) :
    lookupTask s1.tasks id = some ⟨Status.done, some now, some (outPath s id), t.error⟩ ∧
      (s.debug = false → s1.files = s.files ∧ outPath s id ∉ s1.files ∧
        s1.savedToDb = s.savedToDb ++ [(id, outPath s id)]) ∧
      (s.debug = true → outPath s id ∈ s1.files ∧ s1.savedToDb = s.savedToDb) := by
  rw [background_generate_ok_eq now p true h] at h1
  injection h1 with h1
  refine ⟨?_, ?_, ?_⟩
  · rw [← h1, (save_to_db_proj _ _ _ _).1, lookup_setTask, if_pos rfl]
  · intro hdbg
    rw [← h1]
    simp [save_to_db, hdbg, List.erase_cons_head]
    exact hout
  · intro hdbg
    rw [← h1]
    simp [save_to_db, hdbg]

/-- Concrete instantiation of the amended C4 on the bridge-enabled
one-job registry. -/
theorem C4_witness :
    lookupTask c4AfterSave.tasks "u1" =
        some ⟨Status.done, some 10, some (outPath c4State "u1"), none⟩ ∧
      (c4State.debug = false → c4AfterSave.files = c4State.files ∧
        outPath c4State "u1" ∉ c4AfterSave.files ∧
        c4AfterSave.savedToDb = c4State.savedToDb ++ [("u1", outPath c4State "u1")]) ∧
      (c4State.debug = true → outPath c4State "u1" ∈ c4AfterSave.files ∧
        c4AfterSave.savedToDb = c4State.savedToDb) :=
  C4_amended c4State 10 "u1" "a prompt" ⟨Status.pending, some 0, none, none⟩ c4AfterSave
    (by decide) (by decide) (by rfl)

/-! Claim C5. -/

theorem countKey_eq_zero {tasks : Tasks} {id : String}
    (h : id ∉ taskKeys tasks) : countKey tasks id = 0 := by
  induction tasks with
  | nil => rfl
  | cons p rest ih =>
      obtain ⟨k, u⟩ := p
      simp only [taskKeys, List.map_cons, List.mem_cons] at h
      push_neg at h
      have hk : ¬ k = id := fun hh => h.1 hh.symm
      simp only [countKey, List.filter_cons, decide_eq_true_eq]
      rw [if_neg (by simpa using hk)]
      exact ih (by simpa [taskKeys] using h.2)

theorem countKey_setTask_eq_one {tasks : Tasks} (hwf : WFTasks tasks)
    (id : String) (t : Task) : countKey (setTask tasks id t) id = 1 := by
  induction tasks with
  | nil => simp [setTask, countKey, List.filter_cons]
  | cons p rest ih =>
      obtain ⟨k, u⟩ := p
      simp only [WFTasks, taskKeys, List.map_cons, List.nodup_cons] at hwf
      by_cases hk : k = id
      · subst hk
        have hz : countKey rest k = 0 :=
          countKey_eq_zero (by simpa [taskKeys] using hwf.1)
        simp only [countKey] at hz ⊢
        simp [setTask, List.filter_cons, hz]
      · simp only [countKey]
        simp [setTask, hk, List.filter_cons]
        exact ih hwf.2

/-- Claim C5: submitting an id again while its Job is non-terminal
replaces the record with a fresh `pending` one — result and error fields
cleared, timestamp restamped, exactly one registry entry for the id
(last-write-wins, not a merge) — and the work item carrying the second
submission's prompt is what gets handed to the worker. -/
theorem C5_resubmit_overwrites (s : AppState) (now : Int) (id p2 : String) (t : Task)
    (hwf : WF s) (h : lookupTask s.tasks id = some t)
    (hnt : t.status = Status.pending ∨ t.status = Status.processing) :
    lookupTask (generate_audio s now id p2).tasks id =
        some ⟨Status.pending, some now, none, none⟩ ∧
      countKey (generate_audio s now id p2).tasks id = 1 ∧
      (generate_audio s now id p2).queue = s.queue ++ [(id, p2)] := by
  refine ⟨?_, ?_, rfl⟩
  · rw [generate_audio]
    simp [lookup_setTask]
  · exact countKey_setTask_eq_one hwf id _

/-- A registry holding "u1" in flight (processing) from a first
submission whose prompt was "first prompt". -/
def c5State : AppState :=
  { tasks := [("u1", ⟨Status.processing, some 0, none, none⟩)]
    queue := [("u1", "first prompt")]
    files := []
    savedToDb := []
    debug := false
    expire := 300
    outputDir := "./output" }

/-- Concrete instantiation of C5: resubmitting "u1" with a second prompt
while it is processing leaves exactly one fresh pending entry and
enqueues the second prompt. -/
theorem C5_witness :
    lookupTask (generate_audio c5State 40 "u1" "second prompt").tasks "u1" =
        some ⟨Status.pending, some 40, none, none⟩ ∧
      countKey (generate_audio c5State 40 "u1" "second prompt").tasks "u1" = 1 ∧
      (generate_audio c5State 40 "u1" "second prompt").queue =
        c5State.queue ++ [("u1", "second prompt")] :=
  C5_resubmit_overwrites c5State 40 "u1" "second prompt"
    ⟨Status.processing, some 0, none, none⟩ (by decide) (by decide) (Or.inr rfl)

/-! Claim C7. -/

/-- Claim C7: `generate_audio` stores the `pending` record before handing
the pair to the background runner, so immediately after any submission a
status query for that id answers 200/pending (never 404), the stored
record is the fresh pending one, and the work item sits at the back of
the queue. -/
theorem C7_pending_before_enqueue (s : AppState) (now : Int) (id p : String) :
    get_status (generate_audio s now id p) id = StatusResponse.ok id Status.pending ∧
      lookupTask (generate_audio s now id p).tasks id =
        some ⟨Status.pending, some now, none, none⟩ ∧
      (generate_audio s now id p).queue = s.queue ++ [(id, p)] := by
  refine ⟨?_, ?_, rfl⟩
  · rw [get_status, generate_audio]
    simp [lookup_setTask]
  · rw [generate_audio]
    simp [lookup_setTask]

/-! Claim C8. -/

theorem filter_status_length_sum (l : Tasks) :
    (l.filter (fun p => p.2.status = Status.pending)).length +
        (l.filter (fun p => p.2.status = Status.processing)).length +
        (l.filter (fun p => p.2.status = Status.done)).length +
        (l.filter (fun p => p.2.status = Status.error)).length = l.length := by
  induction l with
  | nil => rfl
  | cons p rest ih =>
      cases hs : p.2.status <;> simp [List.filter_cons, hs] <;> omega

theorem mem_status_list {l : Tasks} (hwf : WFTasks l) {id : String} {t : Task}
    (h : lookupTask l id = some t) (st : Status) :
    id ∈ (l.filter (fun p => p.2.status = st)).map Prod.fst ↔ t.status = st := by
  constructor
  · intro hm
    simp only [List.mem_map, List.mem_filter, decide_eq_true_eq] at hm
    obtain ⟨q, ⟨hq, hqs⟩, hqid⟩ := hm
    have hq2 : (id, q.2) ∈ l := by
      rw [← hqid]
      simpa using hq
    have h3 := lookup_eq_some_of_mem hwf hq2
    rw [h] at h3
    injection h3 with h3
    rw [h3]
    exact hqs
  · intro hst
    simp only [List.mem_map, List.mem_filter, decide_eq_true_eq]
    exact ⟨(id, t), ⟨mem_of_lookup_eq_some h, hst⟩, rfl⟩

/-- Claim C8: the four `/queue` lists partition the registry — their
lengths sum to `total`, and each registered id appears in precisely the
list matching its status (hence in exactly one of the four, the status
being exactly one of the four values). -/
theorem C8_queue_consistent (s : AppState) (hwf : WF s) :
    (queue_status s).pending.length + (queue_status s).processing.length +
        (queue_status s).done.length + (queue_status s).error.length =
        (queue_status s).total ∧
      ∀ id t, lookupTask s.tasks id = some t →
        ((id ∈ (queue_status s).pending ↔ t.status = Status.pending) ∧
          (id ∈ (queue_status s).processing ↔ t.status = Status.processing) ∧
          (id ∈ (queue_status s).done ↔ t.status = Status.done) ∧
          (id ∈ (queue_status s).error ↔ t.status = Status.error)) := by
  constructor
  · simp only [queue_status, List.length_map]
    exact filter_status_length_sum s.tasks
  · intro id t h
    exact ⟨mem_status_list hwf h Status.pending, mem_status_list hwf h Status.processing,
      mem_status_list hwf h Status.done, mem_status_list hwf h Status.error⟩

/-- A registry holding one job in each of the four statuses. -/
def c8State : AppState :=
  { tasks := [("u1", ⟨Status.pending, some 40, none, none⟩),
              ("u2", ⟨Status.processing, some 30, none, none⟩),
              ("u3", ⟨Status.done, some 20, some "./output/u3.wav", none⟩),
              ("u4", ⟨Status.error, some 10, none, some "boom"⟩)]
    queue := []
    files := ["./output/u3.wav"]
    savedToDb := []
    debug := true
    expire := 300
    outputDir := "./output" }

/-- Concrete instantiation of C8 on the four-status registry, with the
membership group instantiated at the done job "u3". -/
theorem C8_witness :
    (queue_status c8State).pending.length + (queue_status c8State).processing.length +
        (queue_status c8State).done.length + (queue_status c8State).error.length =
        (queue_status c8State).total ∧
      (("u3" ∈ (queue_status c8State).pending ↔
          (⟨Status.done, some 20, some "./output/u3.wav", none⟩ : Task).status =
            Status.pending) ∧
        ("u3" ∈ (queue_status c8State).processing ↔
          (⟨Status.done, some 20, some "./output/u3.wav", none⟩ : Task).status =
            Status.processing) ∧
        ("u3" ∈ (queue_status c8State).done ↔
          (⟨Status.done, some 20, some "./output/u3.wav", none⟩ : Task).status =
            Status.done) ∧
        ("u3" ∈ (queue_status c8State).error ↔
          (⟨Status.done, some 20, some "./output/u3.wav", none⟩ : Task).status =
            Status.error)) := by
  have H := C8_queue_consistent c8State (by decide)
  exact ⟨H.1, H.2 "u3" ⟨Status.done, some 20, some "./output/u3.wav", none⟩ (by decide)⟩

/-! Claim C9. -/

/-- Claim C9 as stated is false in its "period is configurable" part: the
sweep period is the hard-coded literal 300 in `asyncio.sleep(300)` and no
configuration key can change it, while the TTL is read from the "expire"
key with default 300. -/
theorem C9_counterexample :
    reaperPeriod [("period", 60)] = 300 ∧ reaperPeriod [("sleep", 1)] = 300 ∧
      reaperPeriod [] = 300 ∧
      expireTime [("expire", 60)] = 60 ∧ expireTime [] = 300 ∧
      (mkAppState [("expire", 60)] false).expire = 60 := by
  refine ⟨rfl, rfl, rfl, by decide, rfl, by decide⟩

/-- Claim C9, amended: the Reaper wakes every 300 seconds (5 minutes),
hard-coded and independent of configuration; the TTL defaults to 300
seconds and is configurable through the "expire" key, which the app
constructor copies into its expiry time. -/
theorem C9_amended :
    (∀ c : Config, reaperPeriod c = 300) ∧
      expireTime [] = 300 ∧
      (∀ (c : Config) (n : Int), expireTime (("expire", n) :: c) = n) ∧
      (∀ (c : Config) (d : Bool), (mkAppState c d).expire = expireTime c) := by
  refine ⟨fun c => rfl, rfl, ?_, fun c d => rfl⟩
  intro c n
  simp [expireTime]

/-! Claim C10. -/

/-- Claim C10: when the registry no longer holds an id — e.g. after the
Reaper deleted it while that id's generation was in flight — every
completion write of the worker indexes a missing key, and the exception
handler's own first write indexes the same missing key, so the worker
raises an uncaught KeyError instead of recording an error state.  This
holds whether the generation call succeeded or failed, and also when the
entry was already gone before the worker's first write. -/
theorem C10_reaped_in_flight (s : AppState) (now : Int) (id p : String)
    (gen : Except String Unit) (pr : Bool)
    (h : lookupTask s.tasks id = none) :
    workerFinish s now id gen pr = Except.error "KeyError" ∧
      background_generate s now id p gen pr = Except.error "KeyError" := by
  refine ⟨workerFinish_keyError now gen pr h, ?_⟩
  rw [background_generate, workerStart, h]

/-- A registry whose only job "u1" went `processing` at time 0 and whose
generation is still running at time 400. -/
def c10Mid : AppState :=
  { tasks := [("u1", ⟨Status.processing, some 0, none, none⟩)]
    queue := []
    files := []
    savedToDb := []
    debug := false
    expire := 300
    outputDir := "./output" }

/-- The same registry after the Reaper tick at time 400 deleted the
stale processing entry out from under the in-flight worker. -/
def c10Reaped : AppState :=
  cleanupStep c10Mid 400

/-- Concrete instantiation of C10: the worker resuming at time 401 over
the reaped registry raises an uncaught KeyError. -/
theorem C10_witness :
    workerFinish c10Reaped 401 "u1" (Except.ok ()) true = Except.error "KeyError" ∧
      background_generate c10Reaped 401 "u1" "a prompt" (Except.ok ()) true =
        Except.error "KeyError" :=
  C10_reaped_in_flight c10Reaped 401 "u1" "a prompt" (Except.ok ()) true (by decide)

/-! Claim C6. -/

/-- A one-job registry for the failing-generation scenario. -/
def c6State : AppState :=
  { tasks := [("u1", ⟨Status.pending, some 0, none, none⟩)]
    queue := [("u1", "a prompt")]
    files := []
    savedToDb := []
    debug := false
    expire := 300
    outputDir := "./output" }

/-- State after the generation call for "u1" raises an exception whose
`str(e)` is empty (e.g. `raise Exception()`). -/
def c6AfterEmptyError : AppState :=
  match background_generate c6State 10 "u1" "a prompt" (Except.error "") true with
  | Except.ok s => s
  | Except.error _ => c6State

/-- Claim C6 as stated is false in its "non-empty message" part: the
worker records `error = str(e)` verbatim, so a generation failure whose
exception text is empty leaves an empty message in the record. -/
theorem C6_counterexample :
    (lookupTask c6AfterEmptyError.tasks "u1").map Task.status = some Status.error ∧
      (lookupTask c6AfterEmptyError.tasks "u1").bind Task.error = some "" := by
  refine ⟨by decide, by decide⟩

/-- Claim C6, amended: when the generation call for a registered Job
raises with message `msg`, the worker returns normally (the exception is
caught, so the dispatch machinery continues to later jobs), that Job's
record becomes `error` carrying exactly `msg` — non-empty precisely when
the exception's text is — the persister is never invoked and no file
changes (the resulting state keeps `savedToDb` and `files` unchanged),
and every other Job's record is untouched. -/
theorem C6_amended (s : AppState) (now : Int) (id p msg : String) (pr : Bool) (t : Task)
    (h : lookupTask s.tasks id = some t) :
    background_generate s now id p (Except.error msg) pr =
        Except.ok
          { s with
              tasks := setTask s.tasks id ⟨Status.error, t.timestamp, t.result, some msg⟩ } ∧
      lookupTask (setTask s.tasks id ⟨Status.error, t.timestamp, t.result, some msg⟩) id =
        some ⟨Status.error, t.timestamp, t.result, some msg⟩ ∧
      (∀ id2, id2 ≠ id →
        lookupTask (setTask s.tasks id ⟨Status.error, t.timestamp, t.result, some msg⟩) id2 =
          lookupTask s.tasks id2) := by
  refine ⟨background_generate_err_eq now p msg pr h, ?_, ?_⟩
  · rw [lookup_setTask, if_pos rfl]
  · intro id2 hne
    rw [lookup_setTask, if_neg hne]

/-- Concrete instantiation of the amended C6: a failure with message
"model exploded" is recorded on "u1", the resulting state still has the
empty `savedToDb` and `files` of `c6State` (nothing persisted, no file
touched), and the absent record of "u2" stays absent. -/
theorem C6_witness :
    background_generate c6State 10 "u1" "a prompt" (Except.error "model exploded") true =
        Except.ok
          { c6State with
              tasks := setTask c6State.tasks "u1"
                ⟨Status.error, some 0, none, some "model exploded"⟩ } ∧
      lookupTask (setTask c6State.tasks "u1" ⟨Status.error, some 0, none, some "model exploded"⟩)
          "u1" = some ⟨Status.error, some 0, none, some "model exploded"⟩ ∧
      lookupTask (setTask c6State.tasks "u1" ⟨Status.error, some 0, none, some "model exploded"⟩)
          "u2" = lookupTask c6State.tasks "u2" := by
  have H := C6_amended c6State 10 "u1" "a prompt" "model exploded" true
    ⟨Status.pending, some 0, none, none⟩ (by decide)
  exact ⟨H.1, H.2.1, H.2.2 "u2" (by decide)⟩

end YummyAudio
